import Mathlib

/-!
Shallow embedding of the Indivizo/sqs Go package (queue.go, queueProcessor.go).

Modelling conventions:
  - A Go pointer `*T` is `Option T` (`none` = nil); `aws.String s` is `some s`;
    dereferencing a pointer is a `match` whose nil branch aborts the whole
    operation, so every fallible operation returns an outer `Option` where
    `none` models a nil-dereference panic.
  - The AWS SQS client obtained by `GetClient` is an external collaborator; it
    is modelled as a `Transport` record of response oracles, one per SQS API
    call the package uses.  Every operation additionally returns the ordered
    list of calls it issued (`List Call`), so ordering and "was the transport
    contacted" properties can be stated.
  - `encoding/json` applied to the caller-chosen payload types is external and
    is passed in as a function; `encoding/json` applied to the concrete
    `RedrivePolicy` struct is modelled concretely below.
  - Go `error` values are opaque; they are modelled as `Err := String`.
-/

/-- Go error values are opaque to this package; model them as strings. -/
abbrev Err := String

/-- Frankfurt region (const sqsRegion in queue.go); unused by the semantics,
kept for completeness. -/
def sqsRegion : String := "eu-central-1"

/-- Default suffix for dead letter queue (const deadLetterQueueSuffix). -/
def deadLetterQueueSuffix : String := "-deadMessages"

/-- MaxReceiveCountBeforeDead is the receive count before a message is sent to
a dead letter queue (const in queue.go). -/
def MaxReceiveCountBeforeDead : Int := 5

/-- sqs.Message: pointer fields of the AWS SDK struct, as used by this
package. -/
structure SQSMessage where
  MessageId : Option String
  ReceiptHandle : Option String
  Body : Option String
deriving DecidableEq, Repr

/-- sqs.CreateQueueInput: queue name and attribute map.  The Go type
map[string]*string is modelled as an association list. -/
structure CreateQueueInput where
  QueueName : Option String
  Attributes : List (String × Option String)
deriving DecidableEq, Repr

/-- sqs.CreateQueueOutput. -/
structure CreateQueueOutput where
  QueueUrl : Option String
deriving DecidableEq, Repr

/-- sqs.GetQueueAttributesInput. -/
structure GetQueueAttributesInput where
  QueueUrl : Option String
  AttributeNames : List (Option String)
deriving DecidableEq, Repr

/-- sqs.GetQueueAttributesOutput. -/
structure GetQueueAttributesOutput where
  Attributes : List (String × Option String)
deriving DecidableEq, Repr

/-- sqs.SendMessageInput. -/
structure SendMessageInput where
  MessageBody : Option String
  QueueUrl : Option String
deriving DecidableEq, Repr

/-- sqs.SendMessageOutput. -/
structure SendMessageOutput where
  MessageId : Option String
deriving DecidableEq, Repr

/-- sqs.ReceiveMessageInput. -/
structure ReceiveMessageInput where
  QueueUrl : Option String
  MaxNumberOfMessages : Option Int
  VisibilityTimeout : Option Int
  WaitTimeSeconds : Option Int
deriving DecidableEq, Repr

/-- sqs.ReceiveMessageOutput: a slice of message pointers. -/
structure ReceiveMessageOutput where
  Messages : List (Option SQSMessage)
deriving DecidableEq, Repr

/-- sqs.DeleteMessageInput. -/
structure DeleteMessageInput where
  QueueUrl : Option String
  ReceiptHandle : Option String
deriving DecidableEq, Repr

/-- sqs.DeleteMessageOutput (no fields used by the package). -/
structure DeleteMessageOutput where
deriving DecidableEq, Repr

/-- One call issued against an external collaborator: the five SQS API calls
plus the two package-external codec/handler invocations made by the
Processor loop. -/
inductive Call where
  | createQueue (input : CreateQueueInput)
  | getQueueAttributes (input : GetQueueAttributesInput)
  | sendMessage (input : SendMessageInput)
  | receiveMessage (input : ReceiveMessageInput)
  | deleteMessage (input : DeleteMessageInput)
  | decodeBody (bodyStr : String)
  | handleBody
deriving DecidableEq, Repr

/-- The SQS client (sqs.New(session.New(config))) as a record of response
oracles, one per API call the package uses.  Each oracle either fails with a
Go error or returns the output struct. -/
structure Transport where
  createQueue : CreateQueueInput → Except Err CreateQueueOutput
  getQueueAttributes : GetQueueAttributesInput → Except Err GetQueueAttributesOutput
  sendMessage : SendMessageInput → Except Err SendMessageOutput
  receiveMessage : ReceiveMessageInput → Except Err ReceiveMessageOutput
  deleteMessage : DeleteMessageInput → Except Err DeleteMessageOutput

/-- A Queue represents an SQS queue (struct Queue in queue.go).  Go zero
values of the string fields are the empty string. -/
structure Queue where
  Name : String
  URL : String
  DeadLetterQueueURL : String
deriving DecidableEq, Repr

/-- A RedrivePolicy is an sqs policy of a dead letter queue (struct
RedrivePolicy in queue.go); the json tags are maxReceiveCount and
deadLetterTargetArn. -/
structure RedrivePolicy where
  MaxReceiveCount : Int
  DeadLetterTargetArn : String
deriving DecidableEq, Repr

/-- Go map indexing m[k] on map[string]*string: the stored pointer when the
key is present, the zero value nil otherwise. -/
def mapGet (m : List (String × Option String)) (k : String) : Option String :=
  match m.lookup k with
  | some v => v
  | none => none

/-!
Concrete model of encoding/json applied to the RedrivePolicy struct.
The Go json.Marshal function emits the fields in declaration order with the tag names,
renders the int in decimal, and escapes the string with the default
HTML-escaping rules of the encoder.
-/

/-- Decimal digits of a natural number, most significant first. -/
def natDigits (n : Nat) : List Nat :=
  if _h : n < 10 then [n]
  else natDigits (n / 10) ++ [n % 10]
decreasing_by
  exact Nat.div_lt_self (by omega) (by omega)

/-- The character for a decimal digit. -/
def digitChar (d : Nat) : Char := Char.ofNat (48 + d)

/-- Decimal rendering of a natural number, as characters. -/
def natRepr (n : Nat) : List Char := (natDigits n).map digitChar

/-- Decimal rendering of a Go int, as characters (as produced by
encoding/json for an int field). -/
def intRepr (i : Int) : List Char :=
  if i < 0 then '-' :: natRepr i.natAbs else natRepr i.toNat

/-- Lower-case hexadecimal digit character (value below 16). -/
def hexDigitChar (d : Nat) : Char :=
  if d < 10 then Char.ofNat (48 + d) else Char.ofNat (87 + d)

/-- Escaping of one character inside a JSON string literal, following the
default encoder of Go encoding/json: quote, backslash, newline, carriage return and
tab use two-character escapes; the HTML-sensitive characters and the other
control characters use unicode escapes; U+2028 and U+2029 are escaped too. -/
def jsonEscapeChar (c : Char) : List Char :=
  if c = '"' then ['\\', '"']
  else if c = '\\' then ['\\', '\\']
  else if c = '\n' then ['\\', 'n']
  else if c = '\r' then ['\\', 'r']
  else if c = '\t' then ['\\', 't']
  else if c = '<' then ['\\', 'u', '0', '0', '3', 'c']
  else if c = '>' then ['\\', 'u', '0', '0', '3', 'e']
  else if c = '&' then ['\\', 'u', '0', '0', '2', '6']
  else if c.toNat < 32 then
    ['\\', 'u', '0', '0', hexDigitChar (c.toNat / 16), hexDigitChar (c.toNat % 16)]
  else if c.toNat = 8232 then ['\\', 'u', '2', '0', '2', '8']
  else if c.toNat = 8233 then ['\\', 'u', '2', '0', '2', '9']
  else [c]

/-- Escaping of a whole JSON string body. -/
def jsonEscapeList : List Char → List Char
  | [] => []
  | c :: rest => jsonEscapeChar c ++ jsonEscapeList rest

/-- json.Marshal of a RedrivePolicy value: field order and json tag names as
declared in queue.go. -/
def jsonMarshalRedrivePolicy (p : RedrivePolicy) : String :=
  ⟨"\x7b\"maxReceiveCount\":".data ++ intRepr p.MaxReceiveCount ++
   ",\"deadLetterTargetArn\":\"".data ++ jsonEscapeList p.DeadLetterTargetArn.data ++
   "\"\x7d".data⟩

/-- GetAsAWSString returns the RedrivePolicy as a JSON string pointer for an
sqs attribute (method on RedrivePolicy in queue.go).  json.Marshal cannot
fail on this struct, so the error branch of the source is unreachable and the
error component is always none. -/
def RedrivePolicy.GetAsAWSString (policy : RedrivePolicy) : Option String × Option Err :=
  (some (jsonMarshalRedrivePolicy policy), none)

/-- Value of a hexadecimal digit character. -/
def hexVal (c : Char) : Option Nat :=
  if '0' ≤ c ∧ c ≤ '9' then some (c.toNat - 48)
  else if 'a' ≤ c ∧ c ≤ 'f' then some (c.toNat - 87)
  else if 'A' ≤ c ∧ c ≤ 'F' then some (c.toNat - 55)
  else none

/-- Consume an expected literal sequence of characters, returning the rest. -/
def expectChars : List Char → List Char → Option (List Char)
  | [], l => some l
  | _ :: _, [] => none
  | c :: cs, x :: xs => if x = c then expectChars cs xs else none

/-- Parse a run of decimal digits with an accumulator (json number parsing,
integer part). -/
def parseNatAux : Nat → List Char → Nat × List Char
  | acc, [] => (acc, [])
  | acc, c :: rest =>
    if c.isDigit then parseNatAux (10 * acc + (c.toNat - 48)) rest
    else (acc, c :: rest)

/-- Parse a JSON integer (optional minus sign, at least one digit). -/
def parseInt : List Char → Option (Int × List Char)
  | [] => none
  | c :: rest =>
    if c = '-' then
      match rest with
      | [] => none
      | d :: _ =>
        if d.isDigit then
          let p := parseNatAux 0 rest
          some (-(p.1 : Int), p.2)
        else none
    else if c.isDigit then
      let p := parseNatAux 0 (c :: rest)
      some ((p.1 : Int), p.2)
    else none

/-- Parse the body of a JSON string literal up to and including the closing
quote, undoing the escapes of jsonEscapeChar; returns the decoded content and
the characters after the closing quote. -/
def parseJsonStringBody (l : List Char) : Option (List Char × List Char) :=
  match l with
  | [] => none
  | c :: rest =>
    if c = '"' then some ([], rest)
    else if c = '\\' then
      match rest with
      | [] => none
      | e :: r =>
        if e = '"' then (parseJsonStringBody r).map (fun p => ('"' :: p.1, p.2))
        else if e = '\\' then (parseJsonStringBody r).map (fun p => ('\\' :: p.1, p.2))
        else if e = 'n' then (parseJsonStringBody r).map (fun p => ('\n' :: p.1, p.2))
        else if e = 'r' then (parseJsonStringBody r).map (fun p => ('\r' :: p.1, p.2))
        else if e = 't' then (parseJsonStringBody r).map (fun p => ('\t' :: p.1, p.2))
        else if e = 'u' then
          match r with
          | h1 :: h2 :: h3 :: h4 :: r2 =>
            match hexVal h1, hexVal h2, hexVal h3, hexVal h4 with
            | some a, some b, some c2, some d =>
              (parseJsonStringBody r2).map
                (fun p => (Char.ofNat (4096 * a + 256 * b + 16 * c2 + d) :: p.1, p.2))
            | _, _, _, _ => none
          | _ => none
        else none
    else (parseJsonStringBody rest).map (fun p => (c :: p.1, p.2))
termination_by l.length
decreasing_by all_goals simp_wf <;> omega

/-- json.Unmarshal into a RedrivePolicy, specialised to the canonical field
order produced by json.Marshal on this struct. -/
def jsonDecodeRedrivePolicy (s : String) : Option RedrivePolicy := do
  let l1 ← expectChars "\x7b\"maxReceiveCount\":".data s.data
  let (i, l2) ← parseInt l1
  let l3 ← expectChars ",\"deadLetterTargetArn\":\"".data l2
  let (content, l4) ← parseJsonStringBody l3
  let l5 ← expectChars "\x7d".data l4
  match l5 with
  | [] => some ⟨i, ⟨content⟩⟩
  | _ => none

/-!
Queue operations (queue.go).  Each takes the Transport explicitly (the source
obtains a fresh client from ambient configuration via GetClient on every
operation) and returns its Go results plus the ordered list of calls issued.
An outer Option models a nil-pointer-dereference panic.
-/

/-- CreateQueueInput built for the dead letter queue of a given name
(lines 46-51 of queue.go). -/
def deadLetterCreateInput (name : String) : CreateQueueInput :=
  { QueueName := some (name ++ deadLetterQueueSuffix),
    Attributes := [("MessageRetentionPeriod", some "1209600")] }

/-- GetAttributesByQueueURL returns queue attributes by its URL (method on
Queue in queue.go; the receiver is used only for logging). -/
def Queue.GetAttributesByQueueURL (t : Transport) (_queue : Queue) (url : String)
    (attributeNames : List (Option String)) :
    (Option GetQueueAttributesOutput × Option Err) × List Call :=
  let params : GetQueueAttributesInput :=
    { QueueUrl := some url, AttributeNames := attributeNames }
  match t.getQueueAttributes params with
  | .error e => ((none, some e), [.getQueueAttributes params])
  | .ok resp => ((some resp, none), [.getQueueAttributes params])

/-- Init will create the actual queue (method on Queue in queue.go): create
the dead letter queue, record its URL, fetch its QueueArn attribute, build
and serialize the redrive policy, create the primary queue with the redrive
policy and retention period, record its URL.  Returns the updated Queue (the
source mutates the receiver in place) and the Go error. -/
def Queue.Init (t : Transport) (queue : Queue) : Option ((Queue × Option Err) × List Call) :=
  let params := deadLetterCreateInput queue.Name
  match t.createQueue params with
  | .error e => some ((queue, some e), [.createQueue params])
  | .ok resp =>
    match resp.QueueUrl with
    | none => none
    | some dlqUrl =>
      let queue1 : Queue := { queue with DeadLetterQueueURL := dlqUrl }
      let queueArnAttributeName := "QueueArn"
      match Queue.GetAttributesByQueueURL t queue1 queue1.DeadLetterQueueURL
          [some queueArnAttributeName] with
      | ((_, some e), tr2) => some ((queue1, some e), .createQueue params :: tr2)
      | ((attrsOpt, none), tr2) =>
        match attrsOpt with
        | none => none
        | some attrsResp =>
          match mapGet attrsResp.Attributes queueArnAttributeName with
          | none => none
          | some arn =>
            let redrivePolicy : RedrivePolicy :=
              { MaxReceiveCount := MaxReceiveCountBeforeDead, DeadLetterTargetArn := arn }
            match RedrivePolicy.GetAsAWSString redrivePolicy with
            | (_, some e) => some ((queue1, some e), .createQueue params :: tr2)
            | (redrivePolicyString, none) =>
              let params2 : CreateQueueInput :=
                { QueueName := some queue.Name,
                  Attributes := [("RedrivePolicy", redrivePolicyString),
                                 ("MessageRetentionPeriod", some "1209600")] }
              match t.createQueue params2 with
              | .error e =>
                some ((queue1, some e), .createQueue params :: tr2 ++ [.createQueue params2])
              | .ok resp2 =>
                match resp2.QueueUrl with
                | none => none
                | some url =>
                  some (({ queue1 with URL := url }, none),
                        .createQueue params :: tr2 ++ [.createQueue params2])

/-- New returns a prepared SQS queue (queue.go): builds a Queue with the
given name (the other fields are Go zero values) and runs Init on it; the
address of the queue is returned alongside the error in all cases. -/
def New (t : Transport) (name : String) : Option ((Queue × Option Err) × List Call) :=
  let queue : Queue := { Name := name, URL := "", DeadLetterQueueURL := "" }
  Queue.Init t queue

/-- SendMessage will send a message to the queue (method on Queue in
queue.go).  json.Marshal of the untyped payload is external, so the already-
determined marshalling outcome is passed in. -/
def Queue.SendMessage (t : Transport) (marshalBody : Except Err String) (queue : Queue) :
    (Option SendMessageOutput × Option Err) × List Call :=
  match marshalBody with
  | .error e => ((none, some e), [])
  | .ok msg =>
    let params : SendMessageInput :=
      { MessageBody := some msg, QueueUrl := some queue.URL }
    match t.sendMessage params with
    | .error e => ((none, some e), [.sendMessage params])
    | .ok resp => ((some resp, none), [.sendMessage params])

/-- ReceiveMessageInput built by ReceiveMessage for a queue (lines 147-152 of
queue.go). -/
def receiveInputFor (queue : Queue) : ReceiveMessageInput :=
  { QueueUrl := some queue.URL, MaxNumberOfMessages := some 1,
    VisibilityTimeout := some 600, WaitTimeSeconds := some 20 }

/-- ReceiveMessage will return one message from the queue (method on Queue in
queue.go): on transport error, (nil, err); on an empty message slice,
(nil, nil); otherwise the first message pointer of the slice. -/
def Queue.ReceiveMessage (t : Transport) (queue : Queue) :
    (Option SQSMessage × Option Err) × List Call :=
  let params := receiveInputFor queue
  match t.receiveMessage params with
  | .error e => ((none, some e), [.receiveMessage params])
  | .ok resp =>
    match resp.Messages with
    | [] => ((none, none), [.receiveMessage params])
    | m :: _ => ((m, none), [.receiveMessage params])

/-- DeleteMessageByReceiptHandle removes a message from the Queue by its
receipt handle (method on Queue in queue.go); the source dereferences the
receipt handle pointer without a nil check. -/
def Queue.DeleteMessageByReceiptHandle (t : Transport) (queue : Queue)
    (receiptHandle : Option String) :
    Option ((Option DeleteMessageOutput × Option Err) × List Call) :=
  match receiptHandle with
  | none => none
  | some h =>
    let params : DeleteMessageInput :=
      { QueueUrl := some queue.URL, ReceiptHandle := some h }
    match t.deleteMessage params with
    | .error e => some ((none, some e), [.deleteMessage params])
    | .ok resp => some ((some resp, none), [.deleteMessage params])

/-- DeleteMessage removes a message from the Queue (method on Queue in
queue.go); the source dereferences the message pointer (field access) without
a nil check and forwards the receipt handle; log statements pass the
MessageId pointer without dereferencing it. -/
def Queue.DeleteMessage (t : Transport) (queue : Queue) (message : Option SQSMessage) :
    Option ((Option DeleteMessageOutput × Option Err) × List Call) :=
  match message with
  | none => none
  | some msg => Queue.DeleteMessageByReceiptHandle t queue msg.ReceiptHandle

/-!
Processor (queueProcessor.go).
-/

/-- UnmarshalMessageBody will decode the body of the given sqs.Message into
the destination value (queueProcessor.go).  The json decoding of the untyped
destination is external and passed in; the source dereferences the message
pointer and its Body pointer unconditionally, and additionally its MessageId
pointer in the error log. -/
def UnmarshalMessageBody {β : Type} (jsonDecode : String → β → β × Option Err)
    (message : Option SQSMessage) (v : β) : Option ((β × Option Err) × List Call) :=
  match message with
  | none => none
  | some msg =>
    match msg.Body with
    | none => none
    | some bodyStr =>
      match jsonDecode bodyStr v with
      | (v2, some e) =>
        match msg.MessageId with
        | none => none
        | some _ => some ((v2, some e), [.decodeBody bodyStr])
      | (v2, none) => some ((v2, none), [.decodeBody bodyStr])

/-- Processor represents a method that handles incoming sqs messages
(queueProcessor.go).  The Go handler also receives the Processor value
itself; a non-recursive structure cannot carry that self-argument, so the
handler here closes over whatever it needs and takes only the destination
value, returning the (possibly mutated) value and the Go error. -/
structure Processor (β : Type) where
  Queue : Queue
  HandleMessageBody : β → β × Option Err

/-- The external collaborators one loop iteration consults: the transport and
the json decoder for the caller-chosen destination type. -/
structure Env (β : Type) where
  transport : Transport
  jsonDecode : String → β → β × Option Err

/-- One iteration of the Process loop body (lines 47-77 of
queueProcessor.go): poll, and unless the receive failed or returned no
message, decode, handle, and on handler success delete; every failure is
logged and the iteration ends normally (a delete failure is logged and not
re-raised).  Returns the destination value for the next iteration and the
calls issued; none models a panic. -/
def Processor.processIteration {β : Type} (env : Env β) (p : Processor β) (body : β) :
    Option (β × List Call) :=
  match Queue.ReceiveMessage env.transport p.Queue with
  | ((message, err), tr1) =>
    if err.isSome || message.isNone then some (body, tr1)
    else
      match UnmarshalMessageBody env.jsonDecode message body with
      | none => none
      | some ((body2, some _), tr2) => some (body2, tr1 ++ tr2)
      | some ((body2, none), tr2) =>
        match p.HandleMessageBody body2 with
        | (body3, some _) => some (body3, tr1 ++ tr2 ++ [.handleBody])
        | (body3, none) =>
          match Queue.DeleteMessage env.transport p.Queue message with
          | none => none
          | some (_, tr4) => some (body3, tr1 ++ tr2 ++ [.handleBody] ++ tr4)

/-- The Process loop (for-loop of queueProcessor.go), run for a given number
of iterations against a stream of per-iteration environments; the source
loop has no exit, so any finite prefix of its execution is exactly this.
Returns the traces of all iterations, oldest first. -/
def Processor.processSteps {β : Type} (envs : Nat → Env β) (p : Processor β) (body : β) :
    Nat → Option (β × List (List Call))
  | 0 => some (body, [])
  | Nat.succ n =>
    match Processor.processIteration (envs 0) p body with
    | none => none
    | some (body2, tr) =>
      match Processor.processSteps (fun k => envs (k + 1)) p body2 n with
      | none => none
      | some (body3, trs) => some (body3, tr :: trs)

/-- Well-formedness of the receive responses of a transport: every message
pointer in a successful response is non-nil and its MessageId, ReceiptHandle
and Body pointers are non-nil (the shape the real SQS service guarantees). -/
def wfReceive (t : Transport) : Prop :=
  ∀ input resp, t.receiveMessage input = .ok resp →
    ∀ m ∈ resp.Messages, ∃ msg, m = some msg ∧
      msg.MessageId.isSome ∧ msg.ReceiptHandle.isSome ∧ msg.Body.isSome

/-!
Concrete transports, environments and processors used to instantiate the
theorems below on closed inputs.
-/

/-- A transport whose every call fails. -/
def errTransport : Transport where
  createQueue := fun _ => .error "createQueue down"
  getQueueAttributes := fun _ => .error "getQueueAttributes down"
  sendMessage := fun _ => .error "sendMessage down"
  receiveMessage := fun _ => .error "receiveMessage down"
  deleteMessage := fun _ => .error "deleteMessage down"

/-- A transport whose every call succeeds: created queues get a URL derived
from the queue name, attribute lookups return a fixed arn, and receive
returns no message. -/
def okTransport : Transport where
  createQueue := fun input => .ok ⟨some ("url-" ++ input.QueueName.getD "")⟩
  getQueueAttributes := fun _ => .ok ⟨[("QueueArn", some "arn-dlq")]⟩
  sendMessage := fun _ => .ok ⟨some "mid-1"⟩
  receiveMessage := fun _ => .ok ⟨[]⟩
  deleteMessage := fun _ => .ok ⟨⟩

/-- A well-formed sample message. -/
def sampleMsg : SQSMessage where
  MessageId := some "mid-1"
  ReceiptHandle := some "rh-1"
  Body := some "\x7b\x7d"

/-- okTransport, but receive always returns the sample message. -/
def msgTransport : Transport :=
  { okTransport with receiveMessage := fun _ => .ok ⟨[some sampleMsg]⟩ }

/-- A sample provisioned queue. -/
def sampleQueue : Queue where
  Name := "jobs"
  URL := "u"
  DeadLetterQueueURL := "d"

/-- A sample environment over Nat destination values whose decode succeeds. -/
def sampleEnv : Env Nat where
  transport := msgTransport
  jsonDecode := fun _ b => (b + 1, none)

/-- A sample environment whose decode fails. -/
def badDecodeEnv : Env Nat where
  transport := msgTransport
  jsonDecode := fun _ b => (b, some "bad json")

/-- A sample environment over the always-failing transport. -/
def errEnv : Env Nat where
  transport := errTransport
  jsonDecode := fun _ b => (b + 1, none)

/-- A sample environment whose receive yields no message. -/
def idleEnv : Env Nat where
  transport := okTransport
  jsonDecode := fun _ b => (b + 1, none)

/-- A sample processor whose handler always succeeds. -/
def okProcessor : Processor Nat where
  Queue := sampleQueue
  HandleMessageBody := fun b => (b, none)

/-- A sample processor whose handler always fails. -/
def failProcessor : Processor Nat where
  Queue := sampleQueue
  HandleMessageBody := fun b => (b, some "handler failed")

/-!
Helper lemmas: decimal and JSON-string round trips.
-/

/-- Head of the remaining input is not a digit (parsing stops there). -/
def headNotDigit : List Char → Prop
  | [] => True
  | c :: _ => c.isDigit = false

theorem digitChar_isDigit {d : Nat} (h : d < 10) : (digitChar d).isDigit = true := by
  interval_cases d <;> decide

theorem digitChar_toNat {d : Nat} (h : d < 10) : (digitChar d).toNat - 48 = d := by
  interval_cases d <;> decide

theorem digitChar_ne_minus {d : Nat} (h : d < 10) : ¬ digitChar d = '-' := by
  interval_cases d <;> decide

theorem natDigits_lt (n : Nat) : ∀ d ∈ natDigits n, d < 10 := by
  induction n using Nat.strong_induction_on with
  | _ n ih =>
    unfold natDigits
    split
    · intro d hd
      simp only [List.mem_singleton] at hd
      omega
    · intro d hd
      rw [List.mem_append] at hd
      rcases hd with hd | hd
      · exact ih (n / 10) (Nat.div_lt_self (by omega) (by omega)) d hd
      · simp only [List.mem_singleton] at hd
        omega

theorem natDigits_foldl (n : Nat) :
    (natDigits n).foldl (fun a d => 10 * a + d) 0 = n := by
  induction n using Nat.strong_induction_on with
  | _ n ih =>
    unfold natDigits
    split
    · simp
    · rw [List.foldl_append]
      rw [ih (n / 10) (Nat.div_lt_self (by omega) (by omega))]
      simp only [List.foldl_cons, List.foldl_nil]
      omega

theorem natDigits_ne_nil (n : Nat) : natDigits n ≠ [] := by
  unfold natDigits
  split
  · simp
  · simp

theorem parseNatAux_digits (ds : List Nat) (hd : ∀ d ∈ ds, d < 10) (acc : Nat)
    (rest : List Char) (hr : headNotDigit rest) :
    parseNatAux acc (ds.map digitChar ++ rest) =
      (ds.foldl (fun a d => 10 * a + d) acc, rest) := by
  induction ds generalizing acc with
  | nil =>
    cases rest with
    | nil => simp [parseNatAux]
    | cons c r =>
      simp only [headNotDigit] at hr
      simp [parseNatAux, hr]
  | cons d ds ih =>
    have hd0 : d < 10 := hd d (by simp)
    simp only [List.map_cons, List.cons_append, parseNatAux,
      digitChar_isDigit hd0, if_pos]
    rw [digitChar_toNat hd0]
    exact ih (fun x hx => hd x (by simp [hx])) (10 * acc + d)

theorem parseInt_intRepr (i : Int) (rest : List Char) (hr : headNotDigit rest) :
    parseInt (intRepr i ++ rest) = some (i, rest) := by
  by_cases hneg : i < 0
  · obtain ⟨d, ds, hds⟩ := List.exists_cons_of_ne_nil (natDigits_ne_nil i.natAbs)
    have hd0 : d < 10 := natDigits_lt i.natAbs d (by rw [hds]; simp)
    simp only [intRepr, if_pos hneg, natRepr, hds, List.map_cons, List.cons_append,
      parseInt, if_pos rfl]
    rw [show (digitChar d :: (ds.map digitChar ++ rest)) =
      ((d :: ds).map digitChar ++ rest) from by simp]
    rw [parseNatAux_digits (d :: ds) (by rw [← hds]; exact natDigits_lt i.natAbs) 0 rest hr]
    rw [← hds, natDigits_foldl]
    simp only [digitChar_isDigit hd0, if_pos]
    have : -(i.natAbs : Int) = i := by omega
    rw [this]
  · obtain ⟨d, ds, hds⟩ := List.exists_cons_of_ne_nil (natDigits_ne_nil i.toNat)
    have hd0 : d < 10 := natDigits_lt i.toNat d (by rw [hds]; simp)
    simp only [intRepr, if_neg hneg, natRepr, hds, List.map_cons, List.cons_append, parseInt]
    rw [if_neg (digitChar_ne_minus hd0)]
    simp only [digitChar_isDigit hd0, if_pos]
    rw [show (digitChar d :: (ds.map digitChar ++ rest)) =
      ((d :: ds).map digitChar ++ rest) from by simp]
    rw [parseNatAux_digits (d :: ds) (by rw [← hds]; exact natDigits_lt i.toNat) 0 rest hr]
    rw [← hds, natDigits_foldl]
    have : (i.toNat : Int) = i := by omega
    rw [this]

theorem expectChars_append (pat l : List Char) : expectChars pat (pat ++ l) = some l := by
  induction pat with
  | nil => simp [expectChars]
  | cons c cs ih => simp [expectChars, ih]

theorem hexVal_hexDigitChar {d : Nat} (h : d < 16) : hexVal (hexDigitChar d) = some d := by
  interval_cases d <;> decide

theorem parse_quote (t : List Char) : parseJsonStringBody ('"' :: t) = some ([], t) := by
  conv_lhs => unfold parseJsonStringBody
  simp

theorem parse_esc_quote (t : List Char) : parseJsonStringBody ('\\' :: '"' :: t) =
    (parseJsonStringBody t).map (fun p => ('"' :: p.1, p.2)) := by
  conv_lhs => unfold parseJsonStringBody
  simp

theorem parse_esc_backslash (t : List Char) : parseJsonStringBody ('\\' :: '\\' :: t) =
    (parseJsonStringBody t).map (fun p => ('\\' :: p.1, p.2)) := by
  conv_lhs => unfold parseJsonStringBody
  simp

theorem parse_esc_n (t : List Char) : parseJsonStringBody ('\\' :: 'n' :: t) =
    (parseJsonStringBody t).map (fun p => ('\n' :: p.1, p.2)) := by
  conv_lhs => unfold parseJsonStringBody
  simp

theorem parse_esc_r (t : List Char) : parseJsonStringBody ('\\' :: 'r' :: t) =
    (parseJsonStringBody t).map (fun p => ('\r' :: p.1, p.2)) := by
  conv_lhs => unfold parseJsonStringBody
  simp

theorem parse_esc_t (t : List Char) : parseJsonStringBody ('\\' :: 't' :: t) =
    (parseJsonStringBody t).map (fun p => ('\t' :: p.1, p.2)) := by
  conv_lhs => unfold parseJsonStringBody
  simp

theorem parse_esc_u (a b c d : Char) (va vb vc vd : Nat) (t : List Char)
    (ha : hexVal a = some va) (hb : hexVal b = some vb)
    (hc : hexVal c = some vc) (hd : hexVal d = some vd) :
    parseJsonStringBody ('\\' :: 'u' :: a :: b :: c :: d :: t) =
      (parseJsonStringBody t).map
        (fun p => (Char.ofNat (4096 * va + 256 * vb + 16 * vc + vd) :: p.1, p.2)) := by
  conv_lhs => unfold parseJsonStringBody
  simp [ha, hb, hc, hd]

theorem parse_plain (c : Char) (hq : ¬c = '"') (hb : ¬c = '\\') (t : List Char) :
    parseJsonStringBody (c :: t) = (parseJsonStringBody t).map (fun p => (c :: p.1, p.2)) := by
  conv_lhs => unfold parseJsonStringBody
  simp [hq, hb]

set_option maxHeartbeats 1600000 in
theorem parseJsonStringBody_escape (l rest : List Char) :
    parseJsonStringBody (jsonEscapeList l ++ '"' :: rest) = some (l, rest) := by
  induction l with
  | nil =>
    simp only [jsonEscapeList, List.nil_append]
    exact parse_quote rest
  | cons c l ih =>
    simp only [jsonEscapeList, List.append_assoc]
    by_cases h1 : c = '"'
    · subst h1
      rw [show jsonEscapeChar '"' = ['\\', '"'] from by decide]
      simp only [List.cons_append, List.nil_append]
      rw [parse_esc_quote, ih]
      rfl
    by_cases h2 : c = '\\'
    · subst h2
      rw [show jsonEscapeChar '\\' = ['\\', '\\'] from by decide]
      simp only [List.cons_append, List.nil_append]
      rw [parse_esc_backslash, ih]
      rfl
    by_cases h3 : c = '\n'
    · subst h3
      rw [show jsonEscapeChar '\n' = ['\\', 'n'] from by decide]
      simp only [List.cons_append, List.nil_append]
      rw [parse_esc_n, ih]
      rfl
    by_cases h4 : c = '\r'
    · subst h4
      rw [show jsonEscapeChar '\r' = ['\\', 'r'] from by decide]
      simp only [List.cons_append, List.nil_append]
      rw [parse_esc_r, ih]
      rfl
    by_cases h5 : c = '\t'
    · subst h5
      rw [show jsonEscapeChar '\t' = ['\\', 't'] from by decide]
      simp only [List.cons_append, List.nil_append]
      rw [parse_esc_t, ih]
      rfl
    by_cases h6 : c = '<'
    · subst h6
      rw [show jsonEscapeChar '<' = ['\\', 'u', '0', '0', '3', 'c'] from by decide]
      simp only [List.cons_append, List.nil_append]
      rw [parse_esc_u '0' '0' '3' 'c' 0 0 3 12 _ (by decide) (by decide) (by decide) (by decide)]
      rw [ih, show Char.ofNat (4096 * 0 + 256 * 0 + 16 * 3 + 12) = '<' from by decide]
      rfl
    by_cases h7 : c = '>'
    · subst h7
      rw [show jsonEscapeChar '>' = ['\\', 'u', '0', '0', '3', 'e'] from by decide]
      simp only [List.cons_append, List.nil_append]
      rw [parse_esc_u '0' '0' '3' 'e' 0 0 3 14 _ (by decide) (by decide) (by decide) (by decide)]
      rw [ih, show Char.ofNat (4096 * 0 + 256 * 0 + 16 * 3 + 14) = '>' from by decide]
      rfl
    by_cases h8 : c = '&'
    · subst h8
      rw [show jsonEscapeChar '&' = ['\\', 'u', '0', '0', '2', '6'] from by decide]
      simp only [List.cons_append, List.nil_append]
      rw [parse_esc_u '0' '0' '2' '6' 0 0 2 6 _ (by decide) (by decide) (by decide) (by decide)]
      rw [ih, show Char.ofNat (4096 * 0 + 256 * 0 + 16 * 2 + 6) = '&' from by decide]
      rfl
    by_cases h9 : c.toNat < 32
    · rw [show jsonEscapeChar c =
        ['\\', 'u', '0', '0', hexDigitChar (c.toNat / 16), hexDigitChar (c.toNat % 16)] from by
          simp only [jsonEscapeChar, if_neg h1, if_neg h2, if_neg h3, if_neg h4, if_neg h5,
            if_neg h6, if_neg h7, if_neg h8, if_pos h9]]
      simp only [List.cons_append, List.nil_append]
      rw [parse_esc_u '0' '0' (hexDigitChar (c.toNat / 16)) (hexDigitChar (c.toNat % 16))
        0 0 (c.toNat / 16) (c.toNat % 16) _ (by decide) (by decide)
        (hexVal_hexDigitChar (by omega)) (hexVal_hexDigitChar (by omega))]
      rw [ih, show 4096 * 0 + 256 * 0 + 16 * (c.toNat / 16) + c.toNat % 16 = c.toNat from by omega]
      rw [Char.ofNat_toNat]
      rfl
    by_cases h10 : c.toNat = 8232
    · rw [show jsonEscapeChar c = ['\\', 'u', '2', '0', '2', '8'] from by
        simp only [jsonEscapeChar, if_neg h1, if_neg h2, if_neg h3, if_neg h4, if_neg h5,
          if_neg h6, if_neg h7, if_neg h8, if_neg h9, if_pos h10]]
      simp only [List.cons_append, List.nil_append]
      rw [parse_esc_u '2' '0' '2' '8' 2 0 2 8 _ (by decide) (by decide) (by decide) (by decide)]
      rw [ih, show (4096 * 2 + 256 * 0 + 16 * 2 + 8 : Nat) = c.toNat from by omega]
      rw [Char.ofNat_toNat]
      rfl
    by_cases h11 : c.toNat = 8233
    · rw [show jsonEscapeChar c = ['\\', 'u', '2', '0', '2', '9'] from by
        simp only [jsonEscapeChar, if_neg h1, if_neg h2, if_neg h3, if_neg h4, if_neg h5,
          if_neg h6, if_neg h7, if_neg h8, if_neg h9, if_neg h10, if_pos h11]]
      simp only [List.cons_append, List.nil_append]
      rw [parse_esc_u '2' '0' '2' '9' 2 0 2 9 _ (by decide) (by decide) (by decide) (by decide)]
      rw [ih, show (4096 * 2 + 256 * 0 + 16 * 2 + 9 : Nat) = c.toNat from by omega]
      rw [Char.ofNat_toNat]
      rfl
    · rw [show jsonEscapeChar c = [c] from by
        simp only [jsonEscapeChar, if_neg h1, if_neg h2, if_neg h3, if_neg h4, if_neg h5,
          if_neg h6, if_neg h7, if_neg h8, if_neg h9, if_neg h10, if_neg h11]]
      simp only [List.cons_append, List.nil_append]
      rw [parse_plain c h1 h2, ih]
      rfl

theorem jsonDecode_marshal (p : RedrivePolicy) :
    jsonDecodeRedrivePolicy (jsonMarshalRedrivePolicy p) = some p := by
  obtain ⟨i, s⟩ := p
  have e1 : (jsonMarshalRedrivePolicy ⟨i, s⟩).data =
      "\x7b\"maxReceiveCount\":".data ++
        (intRepr i ++
          (",\"deadLetterTargetArn\":\"".data ++
            (jsonEscapeList s.data ++ ('"' :: ['\x7d'])))) := by
    show ("\x7b\"maxReceiveCount\":".data ++ intRepr i ++
        ",\"deadLetterTargetArn\":\"".data ++ jsonEscapeList s.data ++
        "\"\x7d".data) = _
    rw [show "\"\x7d".data = '"' :: ['\x7d'] from by decide]
    simp [List.append_assoc]
  have hnd : headNotDigit (",\"deadLetterTargetArn\":\"".data ++
      (jsonEscapeList s.data ++ ('"' :: ['\x7d']))) := by
    rw [show ",\"deadLetterTargetArn\":\"".data =
      ',' :: "\"deadLetterTargetArn\":\"".data from by decide]
    simp only [List.cons_append]
    simp [headNotDigit]
  unfold jsonDecodeRedrivePolicy
  rw [e1, expectChars_append]
  simp only [Option.bind_eq_bind, Option.some_bind]
  rw [parseInt_intRepr i _ hnd]
  simp only [Option.some_bind]
  rw [expectChars_append]
  simp only [Option.some_bind]
  rw [parseJsonStringBody_escape]
  simp only [Option.some_bind]
  rw [show expectChars "\x7d".data ['\x7d'] = some [] from by decide]
  simp only [Option.some_bind]

theorem receiveMessage_error (t : Transport) (q : Queue) (e : Err)
    (h : t.receiveMessage (receiveInputFor q) = .error e) :
    Queue.ReceiveMessage t q = ((none, some e), [.receiveMessage (receiveInputFor q)]) := by
  unfold Queue.ReceiveMessage
  simp [h]

theorem receiveMessage_nil (t : Transport) (q : Queue) (resp : ReceiveMessageOutput)
    (h : t.receiveMessage (receiveInputFor q) = .ok resp) (hm : resp.Messages = []) :
    Queue.ReceiveMessage t q = ((none, none), [.receiveMessage (receiveInputFor q)]) := by
  unfold Queue.ReceiveMessage
  simp [h, hm]

theorem receiveMessage_cons (t : Transport) (q : Queue) (resp : ReceiveMessageOutput)
    (m : Option SQSMessage) (ms : List (Option SQSMessage))
    (h : t.receiveMessage (receiveInputFor q) = .ok resp) (hm : resp.Messages = m :: ms) :
    Queue.ReceiveMessage t q = ((m, none), [.receiveMessage (receiveInputFor q)]) := by
  unfold Queue.ReceiveMessage
  simp [h, hm]

theorem unmarshal_eq {β : Type} (f : String → β → β × Option Err) (msg : SQSMessage)
    (v : β) (bs mid : String) (v2 : β) (e : Option Err)
    (hbs : msg.Body = some bs) (hmid : msg.MessageId = some mid)
    (hf : f bs v = (v2, e)) :
    UnmarshalMessageBody f (some msg) v = some ((v2, e), [Call.decodeBody bs]) := by
  unfold UnmarshalMessageBody
  cases e with
  | none => simp [hbs, hf]
  | some ee => simp [hbs, hf, hmid]

theorem deleteMessage_eq (t : Transport) (q : Queue) (msg : SQSMessage) (rh : String)
    (hrh : msg.ReceiptHandle = some rh) :
    ∃ res, Queue.DeleteMessage t q (some msg) =
      some (res, [.deleteMessage ⟨some q.URL, some rh⟩]) := by
  have h0 : Queue.DeleteMessage t q (some msg) =
      Queue.DeleteMessageByReceiptHandle t q msg.ReceiptHandle := rfl
  rw [h0, hrh]
  unfold Queue.DeleteMessageByReceiptHandle
  cases hd : t.deleteMessage ⟨some q.URL, some rh⟩ with
  | error e => exact ⟨(none, some e), by simp [hd]⟩
  | ok resp => exact ⟨(some resp, none), by simp [hd]⟩

theorem processIteration_total {β : Type} (env : Env β) (p : Processor β) (body : β)
    (hwf : wfReceive env.transport) :
    ∃ b tr, Processor.processIteration env p body = some (b, tr) := by
  unfold Processor.processIteration
  cases hr : env.transport.receiveMessage (receiveInputFor p.Queue) with
  | error e =>
    rw [receiveMessage_error env.transport p.Queue e hr]
    exact ⟨body, [.receiveMessage (receiveInputFor p.Queue)], by simp⟩
  | ok resp =>
    cases hm : resp.Messages with
    | nil =>
      rw [receiveMessage_nil env.transport p.Queue resp hr hm]
      exact ⟨body, [.receiveMessage (receiveInputFor p.Queue)], by simp⟩
    | cons m ms =>
      obtain ⟨msg, rfl, hmid, hrh, hbody⟩ := hwf _ _ hr m (by rw [hm]; simp)
      rw [receiveMessage_cons env.transport p.Queue resp (some msg) ms hr hm]
      obtain ⟨bs, hbs⟩ := Option.isSome_iff_exists.mp hbody
      obtain ⟨mid, hmid2⟩ := Option.isSome_iff_exists.mp hmid
      obtain ⟨rh, hrh2⟩ := Option.isSome_iff_exists.mp hrh
      rcases hf : env.jsonDecode bs body with ⟨v2, e⟩
      cases e with
      | some e2 =>
        refine ⟨v2, [.receiveMessage (receiveInputFor p.Queue), .decodeBody bs], ?_⟩
        simp [unmarshal_eq env.jsonDecode msg body bs mid v2 (some e2) hbs hmid2 hf]
      | none =>
        rcases hh : p.HandleMessageBody v2 with ⟨b3, herr⟩
        cases herr with
        | some e2 =>
          refine ⟨b3, [.receiveMessage (receiveInputFor p.Queue), .decodeBody bs,
            .handleBody], ?_⟩
          simp [unmarshal_eq env.jsonDecode msg body bs mid v2 none hbs hmid2 hf, hh]
        | none =>
          obtain ⟨res, hdel⟩ := deleteMessage_eq env.transport p.Queue msg rh hrh2
          refine ⟨b3, [.receiveMessage (receiveInputFor p.Queue), .decodeBody bs,
            .handleBody, .deleteMessage ⟨some p.Queue.URL, some rh⟩], ?_⟩
          simp [unmarshal_eq env.jsonDecode msg body bs mid v2 none hbs hmid2 hf, hh, hdel]

theorem processSteps_total {β : Type} (envs : Nat → Env β) (p : Processor β) (body : β)
    (n : Nat) (hwf : ∀ k, wfReceive (envs k).transport) :
    ∃ b trs, Processor.processSteps envs p body n = some (b, trs) ∧ trs.length = n := by
  induction n generalizing envs body with
  | zero => exact ⟨body, [], rfl, rfl⟩
  | succ n ih =>
    obtain ⟨b2, tr, hit⟩ := processIteration_total (envs 0) p body (hwf 0)
    obtain ⟨b3, trs, hsteps, hlen⟩ := ih (fun k => envs (k + 1)) b2 (fun k => hwf (k + 1))
    refine ⟨b3, tr :: trs, ?_, by simp [hlen]⟩
    unfold Processor.processSteps
    rw [hit]
    simp only [hsteps]

/-!
The claims.
-/

/-- Claim C1: for every queue name, Init creates the dead-letter queue (named
name plus the -deadMessages suffix) before the primary queue: every call
trace of Init starts with that creation; and if the dead-letter queue
creation fails, Init returns the error with the dead-letter creation as the
only transport call, so the primary queue is never attempted. -/
theorem init_dead_letter_first (t : Transport) (q : Queue) :
    (∀ r tr, Queue.Init t q = some (r, tr) →
      tr.head? = some (.createQueue (deadLetterCreateInput q.Name))) ∧
    (∀ e, t.createQueue (deadLetterCreateInput q.Name) = .error e →
      Queue.Init t q = some ((q, some e), [.createQueue (deadLetterCreateInput q.Name)])) := by
  constructor
  · intro r tr h
    unfold Queue.Init Queue.GetAttributesByQueueURL at h
    cases hc : t.createQueue (deadLetterCreateInput q.Name) with
    | error e =>
      simp only [hc] at h
      simp at h
      simp [← h.2]
    | ok resp =>
      simp only [hc] at h
      obtain ⟨respUrl⟩ := resp
      cases respUrl with
      | none => simp at h
      | some dlqUrl =>
        simp only [] at h
        cases hg : t.getQueueAttributes ⟨some dlqUrl, [some "QueueArn"]⟩ with
        | error e =>
          simp only [hg] at h
          simp at h
          simp [← h.2]
        | ok attrsResp =>
          simp only [hg] at h
          cases hm : mapGet attrsResp.Attributes "QueueArn" with
          | none =>
            simp only [hm] at h
            simp at h
          | some arn =>
            simp only [hm, RedrivePolicy.GetAsAWSString] at h
            cases hc2 : t.createQueue ⟨some q.Name,
                [("RedrivePolicy", some (jsonMarshalRedrivePolicy
                    ⟨MaxReceiveCountBeforeDead, arn⟩)),
                 ("MessageRetentionPeriod", some "1209600")]⟩ with
            | error e =>
              simp only [hc2] at h
              simp at h
              simp [← h.2]
            | ok resp2 =>
              simp only [hc2] at h
              obtain ⟨resp2Url⟩ := resp2
              cases resp2Url with
              | none => simp at h
              | some url =>
                simp at h
                simp [← h.2]
  · intro e he
    unfold Queue.Init
    simp only [he]

/-- Witness for C1 on a concrete failing transport. -/
theorem init_dead_letter_first_witness :
    Queue.Init errTransport ⟨"jobs", "", ""⟩ =
      some (((⟨"jobs", "", ""⟩ : Queue), some "createQueue down"),
        [.createQueue (deadLetterCreateInput "jobs")]) ∧
    ([.createQueue (deadLetterCreateInput "jobs")] : List Call).head? =
      some (.createQueue (deadLetterCreateInput "jobs")) :=
  ⟨(init_dead_letter_first errTransport ⟨"jobs", "", ""⟩).2 "createQueue down" rfl,
   (init_dead_letter_first errTransport ⟨"jobs", "", ""⟩).1 _ _
     ((init_dead_letter_first errTransport ⟨"jobs", "", ""⟩).2 "createQueue down" rfl)⟩

/-- Claim C2: in an iteration of the Process loop that received a well-formed
message and decoded it successfully, the message is deleted (the transport
delete call appears in the trace, carrying the message receipt handle and
the queue URL) if and only if the handler invocation returns success; after
a failing handler invocation no delete call appears. -/
theorem process_delete_iff_handle_ok {β : Type} (env : Env β) (p : Processor β)
    (body : β) (msg : SQSMessage) (bs mid rh : String) (b2 : β)
    (hr : env.transport.receiveMessage (receiveInputFor p.Queue) = .ok ⟨[some msg]⟩)
    (hbs : msg.Body = some bs) (hmid : msg.MessageId = some mid)
    (hrh : msg.ReceiptHandle = some rh)
    (hdec : env.jsonDecode bs body = (b2, none)) :
    ∃ b3 tr, Processor.processIteration env p body = some (b3, tr) ∧
      ((p.HandleMessageBody b2).2 = none ↔ ∃ inp, Call.deleteMessage inp ∈ tr) ∧
      (∀ inp, Call.deleteMessage inp ∈ tr →
        inp = ⟨some p.Queue.URL, some rh⟩) := by
  unfold Processor.processIteration
  rw [receiveMessage_cons env.transport p.Queue ⟨[some msg]⟩ (some msg) [] hr rfl]
  rcases hh : p.HandleMessageBody b2 with ⟨b3, herr⟩
  cases herr with
  | some e =>
    refine ⟨b3, [.receiveMessage (receiveInputFor p.Queue), .decodeBody bs, .handleBody],
      ?_, ?_, ?_⟩
    · simp [unmarshal_eq env.jsonDecode msg body bs mid b2 none hbs hmid hdec, hh]
    · simp [hh]
    · intro inp hinp
      simp at hinp
  | none =>
    obtain ⟨res, hdel⟩ := deleteMessage_eq env.transport p.Queue msg rh hrh
    refine ⟨b3, [.receiveMessage (receiveInputFor p.Queue), .decodeBody bs, .handleBody,
      .deleteMessage ⟨some p.Queue.URL, some rh⟩], ?_, ?_, ?_⟩
    · simp [unmarshal_eq env.jsonDecode msg body bs mid b2 none hbs hmid hdec, hh, hdel]
    · simp [hh]
    · intro inp hinp
      simp at hinp
      exact hinp

/-- Witness for C2 on a concrete environment with a succeeding handler. -/
theorem process_delete_iff_handle_ok_witness :
    ∃ b3 tr, Processor.processIteration sampleEnv okProcessor 0 = some (b3, tr) ∧
      ((okProcessor.HandleMessageBody 1).2 = none ↔ ∃ inp, Call.deleteMessage inp ∈ tr) ∧
      (∀ inp, Call.deleteMessage inp ∈ tr →
        inp = ⟨some okProcessor.Queue.URL, some "rh-1"⟩) :=
  process_delete_iff_handle_ok sampleEnv okProcessor 0 sampleMsg "\x7b\x7d" "mid-1" "rh-1" 1
    rfl rfl rfl rfl rfl

/-- Claim C3: for every stream of per-iteration outcomes (receive errors,
decode failures, handler failures, delete failures in any combination), and
any number of iterations, the Process loop completes all iterations: no
loop-internal failure terminates the loop, and no panic occurs as long as
the transport returns well-formed messages. -/
theorem process_loop_total {β : Type} (envs : Nat → Env β) (p : Processor β) (body : β)
    (n : Nat) (hwf : ∀ k, wfReceive (envs k).transport) :
    ∃ b trs, Processor.processSteps envs p body n = some (b, trs) ∧ trs.length = n :=
  processSteps_total envs p body n hwf

/-- Witness for C3 on a transport whose every call fails, for three
iterations. -/
theorem process_loop_total_witness :
    ∃ b trs, Processor.processSteps (fun _ => errEnv) okProcessor 0 3 = some (b, trs) ∧
      trs.length = 3 :=
  process_loop_total (fun _ => errEnv) okProcessor 0 3
    (fun _ => by
      intro input resp h m hm
      simp [errEnv, errTransport] at h)

/-- Claim C4: in an iteration of the Process loop where decoding the received
message body fails, the handler is not invoked and the message is not
deleted: the iteration ends normally with exactly the receive and decode
events in its trace, and the loop proceeds. -/
theorem process_decode_failure_skips {β : Type} (env : Env β) (p : Processor β)
    (body : β) (msg : SQSMessage) (bs mid : String) (e : Err) (b2 : β)
    (hr : env.transport.receiveMessage (receiveInputFor p.Queue) = .ok ⟨[some msg]⟩)
    (hbs : msg.Body = some bs) (hmid : msg.MessageId = some mid)
    (hdec : env.jsonDecode bs body = (b2, some e)) :
    ∃ tr, Processor.processIteration env p body = some (b2, tr) ∧
      tr = [.receiveMessage (receiveInputFor p.Queue), .decodeBody bs] ∧
      Call.handleBody ∉ tr ∧ (∀ inp, Call.deleteMessage inp ∉ tr) := by
  refine ⟨[.receiveMessage (receiveInputFor p.Queue), .decodeBody bs], ?_, rfl,
    by simp, by simp⟩
  unfold Processor.processIteration
  rw [receiveMessage_cons env.transport p.Queue ⟨[some msg]⟩ (some msg) [] hr rfl]
  simp [unmarshal_eq env.jsonDecode msg body bs mid b2 (some e) hbs hmid hdec]

/-- Witness for C4 on a concrete environment whose decode fails. -/
theorem process_decode_failure_skips_witness :
    ∃ tr, Processor.processIteration badDecodeEnv okProcessor 0 = some (0, tr) ∧
      tr = [.receiveMessage (receiveInputFor okProcessor.Queue), .decodeBody "\x7b\x7d"] ∧
      Call.handleBody ∉ tr ∧ (∀ inp, Call.deleteMessage inp ∉ tr) :=
  process_decode_failure_skips badDecodeEnv okProcessor 0 sampleMsg "\x7b\x7d" "mid-1"
    "bad json" 0 rfl rfl rfl rfl

/-- Claim C5: when the transport returns zero messages, ReceiveMessage
returns (nil message, nil error), not an error; ReceiveMessage returns an
error only when the transport receive call itself failed; and in a Process
iteration with zero messages the trace holds only the receive call, so
neither decode nor the handler nor delete is invoked. -/
theorem receive_no_message_not_error {β : Type} (t : Transport) (q : Queue)
    (env : Env β) (p : Processor β) (body : β) :
    (∀ resp, t.receiveMessage (receiveInputFor q) = .ok resp → resp.Messages = [] →
       Queue.ReceiveMessage t q = ((none, none), [.receiveMessage (receiveInputFor q)])) ∧
    (∀ m e tr, Queue.ReceiveMessage t q = ((m, some e), tr) →
       t.receiveMessage (receiveInputFor q) = .error e) ∧
    (∀ resp, env.transport.receiveMessage (receiveInputFor p.Queue) = .ok resp →
       resp.Messages = [] →
       Processor.processIteration env p body =
         some (body, [.receiveMessage (receiveInputFor p.Queue)])) := by
  refine ⟨?_, ?_, ?_⟩
  · intro resp h hm
    exact receiveMessage_nil t q resp h hm
  · intro m e tr h
    cases hr : t.receiveMessage (receiveInputFor q) with
    | error e2 =>
      rw [receiveMessage_error t q e2 hr] at h
      simp at h
      rw [h.1.2]
    | ok resp =>
      cases hm2 : resp.Messages with
      | nil =>
        rw [receiveMessage_nil t q resp hr hm2] at h
        simp at h
      | cons m2 ms =>
        rw [receiveMessage_cons t q resp m2 ms hr hm2] at h
        simp at h
  · intro resp h hm
    unfold Processor.processIteration
    rw [receiveMessage_nil env.transport p.Queue resp h hm]
    simp

/-- Witness for C5 on concrete transports: an empty receive, a failing
receive, and an idle loop iteration. -/
theorem receive_no_message_not_error_witness :
    Queue.ReceiveMessage okTransport sampleQueue =
      ((none, none), [.receiveMessage (receiveInputFor sampleQueue)]) ∧
    errTransport.receiveMessage (receiveInputFor sampleQueue) =
      .error "receiveMessage down" ∧
    Processor.processIteration idleEnv okProcessor 0 =
      some (0, [.receiveMessage (receiveInputFor okProcessor.Queue)]) :=
  ⟨(receive_no_message_not_error okTransport sampleQueue idleEnv okProcessor 0).1
      ⟨[]⟩ rfl rfl,
   (receive_no_message_not_error errTransport sampleQueue idleEnv okProcessor 0).2.1
      none "receiveMessage down" [.receiveMessage (receiveInputFor sampleQueue)] rfl,
   (receive_no_message_not_error okTransport sampleQueue idleEnv okProcessor 0).2.2
      ⟨[]⟩ rfl rfl⟩

/-- Claim C6: when provisioning succeeds, the primary queue is created with
exactly the attributes RedrivePolicy (the serialization of the policy with
maxReceiveCount 5 and deadLetterTargetArn equal to the QueueArn attribute
fetched from the dead-letter queue) and MessageRetentionPeriod 1209600, as
the third and last transport call of Init. -/
theorem init_success_redrive_attributes (t : Transport) (q q2 : Queue) (tr : List Call)
    (h : Queue.Init t q = some ((q2, none), tr)) :
    MaxReceiveCountBeforeDead = 5 ∧
    ∃ dlqUrl attrs arn,
      t.createQueue (deadLetterCreateInput q.Name) = .ok ⟨some dlqUrl⟩ ∧
      t.getQueueAttributes ⟨some dlqUrl, [some "QueueArn"]⟩ = .ok ⟨attrs⟩ ∧
      mapGet attrs "QueueArn" = some arn ∧
      tr = [.createQueue (deadLetterCreateInput q.Name),
            .getQueueAttributes ⟨some dlqUrl, [some "QueueArn"]⟩,
            .createQueue ⟨some q.Name,
              [("RedrivePolicy",
                 some (jsonMarshalRedrivePolicy ⟨MaxReceiveCountBeforeDead, arn⟩)),
               ("MessageRetentionPeriod", some "1209600")]⟩] := by
  refine ⟨rfl, ?_⟩
  unfold Queue.Init Queue.GetAttributesByQueueURL at h
  cases hc : t.createQueue (deadLetterCreateInput q.Name) with
  | error e =>
    simp only [hc] at h
    simp at h
  | ok resp =>
    simp only [hc] at h
    obtain ⟨respUrl⟩ := resp
    cases respUrl with
    | none => simp at h
    | some dlqUrl =>
      simp only [] at h
      cases hg : t.getQueueAttributes ⟨some dlqUrl, [some "QueueArn"]⟩ with
      | error e =>
        simp only [hg] at h
        simp at h
      | ok attrsResp =>
        simp only [hg] at h
        cases hm : mapGet attrsResp.Attributes "QueueArn" with
        | none =>
          simp only [hm] at h
          simp at h
        | some arn =>
          simp only [hm, RedrivePolicy.GetAsAWSString] at h
          cases hc2 : t.createQueue ⟨some q.Name,
              [("RedrivePolicy", some (jsonMarshalRedrivePolicy
                  ⟨MaxReceiveCountBeforeDead, arn⟩)),
               ("MessageRetentionPeriod", some "1209600")]⟩ with
          | error e =>
            simp only [hc2] at h
            simp at h
          | ok resp2 =>
            simp only [hc2] at h
            obtain ⟨resp2Url⟩ := resp2
            cases resp2Url with
            | none => simp at h
            | some url =>
              simp at h
              exact ⟨dlqUrl, attrsResp.Attributes, arn, rfl, hg, hm, by simp [← h.2]⟩

/-- Witness for C6 on a concrete transport whose every call succeeds. -/
theorem init_success_redrive_attributes_witness :
    MaxReceiveCountBeforeDead = 5 ∧
    ∃ dlqUrl attrs arn,
      okTransport.createQueue (deadLetterCreateInput "jobs") = .ok ⟨some dlqUrl⟩ ∧
      okTransport.getQueueAttributes ⟨some dlqUrl, [some "QueueArn"]⟩ = .ok ⟨attrs⟩ ∧
      mapGet attrs "QueueArn" = some arn ∧
      [Call.createQueue (deadLetterCreateInput "jobs"),
       Call.getQueueAttributes
         ⟨some "url-jobs-deadMessages", [some "QueueArn"]⟩,
       Call.createQueue ⟨some "jobs",
         [("RedrivePolicy",
            some (jsonMarshalRedrivePolicy ⟨MaxReceiveCountBeforeDead, "arn-dlq"⟩)),
          ("MessageRetentionPeriod", some "1209600")]⟩] =
      [Call.createQueue (deadLetterCreateInput "jobs"),
       Call.getQueueAttributes ⟨some dlqUrl, [some "QueueArn"]⟩,
       Call.createQueue ⟨some "jobs",
         [("RedrivePolicy",
            some (jsonMarshalRedrivePolicy ⟨MaxReceiveCountBeforeDead, arn⟩)),
          ("MessageRetentionPeriod", some "1209600")]⟩] :=
  init_success_redrive_attributes okTransport ⟨"jobs", "", ""⟩
    ⟨"jobs", "url-jobs", "url-jobs-deadMessages"⟩
    [Call.createQueue (deadLetterCreateInput "jobs"),
     Call.getQueueAttributes ⟨some "url-jobs-deadMessages", [some "QueueArn"]⟩,
     Call.createQueue ⟨some "jobs",
       [("RedrivePolicy",
          some (jsonMarshalRedrivePolicy ⟨MaxReceiveCountBeforeDead, "arn-dlq"⟩)),
        ("MessageRetentionPeriod", some "1209600")]⟩]
    rfl

/-- Claim C7: for every RedrivePolicy value, GetAsAWSString succeeds and its
JSON string decodes back to an identical value, and the serialized string
contains the literal field names maxReceiveCount and deadLetterTargetArn. -/
theorem redrive_policy_roundtrip (p : RedrivePolicy) :
    ∃ s, RedrivePolicy.GetAsAWSString p = (some s, none) ∧
      jsonDecodeRedrivePolicy s = some p ∧
      "maxReceiveCount".data <:+: s.data ∧
      "deadLetterTargetArn".data <:+: s.data := by
  refine ⟨jsonMarshalRedrivePolicy p, rfl, jsonDecode_marshal p, ?_, ?_⟩
  · refine ⟨"\x7b\"".data,
      "\":".data ++ (intRepr p.MaxReceiveCount ++ (",\"deadLetterTargetArn\":\"".data ++
        (jsonEscapeList p.DeadLetterTargetArn.data ++ "\"\x7d".data))), ?_⟩
    have key : "\x7b\"".data ++ ("maxReceiveCount".data ++ "\":".data) =
        "\x7b\"maxReceiveCount\":".data := by decide
    calc "\x7b\"".data ++ "maxReceiveCount".data ++
          ("\":".data ++ (intRepr p.MaxReceiveCount ++ (",\"deadLetterTargetArn\":\"".data ++
            (jsonEscapeList p.DeadLetterTargetArn.data ++ "\"\x7d".data))))
        = ("\x7b\"".data ++ ("maxReceiveCount".data ++ "\":".data)) ++
          (intRepr p.MaxReceiveCount ++ (",\"deadLetterTargetArn\":\"".data ++
            (jsonEscapeList p.DeadLetterTargetArn.data ++ "\"\x7d".data))) := by
          simp [List.append_assoc]
      _ = (jsonMarshalRedrivePolicy p).data := by
          rw [key]
          show _ = ("\x7b\"maxReceiveCount\":".data ++ intRepr p.MaxReceiveCount ++
            ",\"deadLetterTargetArn\":\"".data ++ jsonEscapeList p.DeadLetterTargetArn.data ++
            "\"\x7d".data)
          simp [List.append_assoc]
  · refine ⟨"\x7b\"maxReceiveCount\":".data ++ (intRepr p.MaxReceiveCount ++ ",\"".data),
      "\":\"".data ++ (jsonEscapeList p.DeadLetterTargetArn.data ++ "\"\x7d".data), ?_⟩
    have key : ",\"".data ++ ("deadLetterTargetArn".data ++ "\":\"".data) =
        ",\"deadLetterTargetArn\":\"".data := by decide
    calc ("\x7b\"maxReceiveCount\":".data ++ (intRepr p.MaxReceiveCount ++ ",\"".data)) ++
          "deadLetterTargetArn".data ++
          ("\":\"".data ++ (jsonEscapeList p.DeadLetterTargetArn.data ++ "\"\x7d".data))
        = "\x7b\"maxReceiveCount\":".data ++ (intRepr p.MaxReceiveCount ++
            (",\"".data ++ ("deadLetterTargetArn".data ++ ("\":\"".data ++
              (jsonEscapeList p.DeadLetterTargetArn.data ++ "\"\x7d".data))))) := by
          simp [List.append_assoc]
      _ = (jsonMarshalRedrivePolicy p).data := by
          rw [show "deadLetterTargetArn".data ++ ("\":\"".data ++
              (jsonEscapeList p.DeadLetterTargetArn.data ++ "\"\x7d".data)) =
            ("deadLetterTargetArn".data ++ "\":\"".data) ++
              (jsonEscapeList p.DeadLetterTargetArn.data ++ "\"\x7d".data) from by
            simp [List.append_assoc]]
          rw [show ",\"".data ++ (("deadLetterTargetArn".data ++ "\":\"".data) ++
              (jsonEscapeList p.DeadLetterTargetArn.data ++ "\"\x7d".data)) =
            (",\"".data ++ ("deadLetterTargetArn".data ++ "\":\"".data)) ++
              (jsonEscapeList p.DeadLetterTargetArn.data ++ "\"\x7d".data) from by
            simp [List.append_assoc]]
          rw [key]
          show _ = ("\x7b\"maxReceiveCount\":".data ++ intRepr p.MaxReceiveCount ++
            ",\"deadLetterTargetArn\":\"".data ++ jsonEscapeList p.DeadLetterTargetArn.data ++
            "\"\x7d".data)
          simp [List.append_assoc]

/-- Claim C8: SendMessage with a failed payload serialization returns the
error without any transport call; with a successful serialization it submits
the serialized body to the queue URL, returning the transport error on
rejection or the transport response (carrying the accepted message
identifier) on success. -/
theorem send_message_marshal_first (t : Transport) (q : Queue) :
    (∀ e, Queue.SendMessage t (.error e) q = ((none, some e), [])) ∧
    (∀ s e, t.sendMessage ⟨some s, some q.URL⟩ = .error e →
       Queue.SendMessage t (.ok s) q =
         ((none, some e), [.sendMessage ⟨some s, some q.URL⟩])) ∧
    (∀ s resp, t.sendMessage ⟨some s, some q.URL⟩ = .ok resp →
       Queue.SendMessage t (.ok s) q =
         ((some resp, none), [.sendMessage ⟨some s, some q.URL⟩])) := by
  refine ⟨fun e => rfl, ?_, ?_⟩
  · intro s e h
    unfold Queue.SendMessage
    simp [h]
  · intro s resp h
    unfold Queue.SendMessage
    simp [h]

/-- Witness for C8 on concrete transports: a failed serialization, a
rejected submission, and an accepted submission. -/
theorem send_message_marshal_first_witness :
    Queue.SendMessage okTransport (.error "encode failed") sampleQueue =
      ((none, some "encode failed"), []) ∧
    Queue.SendMessage errTransport (.ok "body") sampleQueue =
      ((none, some "sendMessage down"), [.sendMessage ⟨some "body", some "u"⟩]) ∧
    Queue.SendMessage okTransport (.ok "body") sampleQueue =
      ((some ⟨some "mid-1"⟩, none), [.sendMessage ⟨some "body", some "u"⟩]) :=
  ⟨(send_message_marshal_first okTransport sampleQueue).1 "encode failed",
   (send_message_marshal_first errTransport sampleQueue).2.1 "body" "sendMessage down" rfl,
   (send_message_marshal_first okTransport sampleQueue).2.2 "body" ⟨some "mid-1"⟩ rfl⟩

/-- Claim C9: when the dead-letter queue creation fails, New still returns a
Queue value holding the requested name with URL and DeadLetterQueueURL both
still empty strings, together with the error.  (In the Go source the pointer
returned by New is always the address of that value, hence non-nil.) -/
theorem new_returns_queue_on_failure (t : Transport) (name : String) (e : Err)
    (he : t.createQueue (deadLetterCreateInput name) = .error e) :
    New t name =
      some ((⟨name, "", ""⟩, some e), [.createQueue (deadLetterCreateInput name)]) := by
  unfold New Queue.Init
  simp only [he]

/-- Witness for C9 on a concrete failing transport. -/
theorem new_returns_queue_on_failure_witness :
    New errTransport "jobs" =
      some (((⟨"jobs", "", ""⟩ : Queue), some "createQueue down"),
        [.createQueue (deadLetterCreateInput "jobs")]) :=
  new_returns_queue_on_failure errTransport "jobs" "createQueue down" rfl

/-- Claim C10: for every call of DeleteMessage with a non-nil message whose
receipt handle is non-nil, and of DeleteMessageByReceiptHandle with a
non-nil handle, no nil dereference occurs (the result is defined) and the
receipt handle passed to the transport delete call equals the message
receipt handle, alongside the queue URL. -/
theorem delete_message_receipt_handle (t : Transport) (q : Queue) (msg : SQSMessage)
    (rh : String) (hrh : msg.ReceiptHandle = some rh) :
    (∃ res, Queue.DeleteMessage t q (some msg) =
       some (res, [.deleteMessage ⟨some q.URL, some rh⟩])) ∧
    (∃ res, Queue.DeleteMessageByReceiptHandle t q (some rh) =
       some (res, [.deleteMessage ⟨some q.URL, some rh⟩])) := by
  refine ⟨deleteMessage_eq t q msg rh hrh, ?_⟩
  unfold Queue.DeleteMessageByReceiptHandle
  cases hd : t.deleteMessage ⟨some q.URL, some rh⟩ with
  | error e => exact ⟨(none, some e), by simp [hd]⟩
  | ok resp => exact ⟨(some resp, none), by simp [hd]⟩

/-- Witness for C10 on a concrete transport and message. -/
theorem delete_message_receipt_handle_witness :
    (∃ res, Queue.DeleteMessage okTransport sampleQueue (some sampleMsg) =
       some (res, [.deleteMessage ⟨some sampleQueue.URL, some "rh-1"⟩])) ∧
    (∃ res, Queue.DeleteMessageByReceiptHandle okTransport sampleQueue (some "rh-1") =
       some (res, [.deleteMessage ⟨some sampleQueue.URL, some "rh-1"⟩])) :=
  delete_message_receipt_handle okTransport sampleQueue sampleMsg "rh-1" rfl
